import Mathlib

/-!
Shallow embedding of the family-registry service in `api/index.py`.

A member record is a dict with integer `id`, string `name`, string
`anggota` (the "group" field), and optional integer parent references
`parent1_id`, `parent2_id`.  Absent keys and explicit `None` values are
both modelled by `none`; Python truthiness of an integer id is `≠ 0`.

The relationship engine `calculate_relationship`, the tree builder
`generate_family_tree` (its pure node/edge emission; rendering is I/O and
out of scope) and the delete handler `delete_family_member` (its pure
store transformation) are translated function by function.  Python dicts
keyed by `int` are modelled as functions `Int → Option _` built by a left
fold, so a later binding of the same key overwrites an earlier one,
exactly as in a dict comprehension or `d[k] = v` assignment.
-/

structure Member where
  id : Int
  name : String
  anggota : Option String
  parent1_id : Option Int
  parent2_id : Option Int
  deriving DecidableEq, Repr

/-- Python truthiness of an optional integer field: `None` and `0` are
falsy, every other integer is truthy. -/
def truthy : Option Int → Bool
  | none => false
  | some i => i != 0

/-- `id_to_member = {member["id"]: member for member in family}` — the
dict is built by inserting each member in list order, a later member with
the same id overwriting an earlier one. -/
def id_to_member (family : List Member) : Int → Option Member :=
  family.foldl (fun d m => fun j => if j = m.id then some m else d j) (fun _ => none)

/-- `id_to_member.get(parent_id, {}).get("parent1_id")` for an integer
key: a missing entry defaults to the empty dict, whose field lookup gives
`None`. -/
def lookP1 (idx : Int → Option Member) (i : Int) : Option Int :=
  (idx i).bind Member.parent1_id

/-- `id_to_member.get(parent_id, {}).get("parent2_id")` for an integer key. -/
def lookP2 (idx : Int → Option Member) (i : Int) : Option Int :=
  (idx i).bind Member.parent2_id

/-- `id_to_member.get(parent1_id, {}).get("parent1_id")` where the key
itself may be `None` (then the default empty dict is used, giving `None`). -/
def optLookP1 (idx : Int → Option Member) (oi : Option Int) : Option Int :=
  oi.bind (lookP1 idx)

/-- As `optLookP1`, for the `parent2_id` field of the looked-up member. -/
def optLookP2 (idx : Int → Option Member) (oi : Option Int) : Option Int :=
  oi.bind (lookP2 idx)

/-- Rule 1, line 60: `member_id in member_parents` — the subject id equals
`m`'s `parent1_id` or `parent2_id` (comparison with `None` is false). -/
def childB (member_id : Int) (m : Member) : Bool :=
  m.parent1_id == some member_id || m.parent2_id == some member_id

/-- One disjunct of rule 2: the generator body
`id_to_member.get(parent_id, {}).get("parent1_id") == member_id` guarded
by the generator filter `if parent_id` (truthiness: skips `None` and `0`). -/
def grandParentCheck (idx : Int → Option Member) (member_id : Int) : Option Int → Bool
  | none => false
  | some p => (p != 0) && (lookP1 idx p == some member_id)

/-- Rule 2, lines 62-65: `any(... for parent_id in member_parents if parent_id)`. -/
def grandchildB (idx : Int → Option Member) (member_id : Int) (m : Member) : Bool :=
  grandParentCheck idx member_id m.parent1_id || grandParentCheck idx member_id m.parent2_id

/-- Rule 3, lines 67-70: `member_id in (index.get(p1,{}).get("parent1_id"),
index.get(p1,{}).get("parent2_id"))` with `p1 = member.parent1_id` (no
truthiness guard on `p1` here). -/
def keponakanB (idx : Int → Option Member) (member_id : Int) (m : Member) : Bool :=
  some member_id == optLookP1 idx m.parent1_id || some member_id == optLookP2 idx m.parent1_id

/-- Rule 4, line 72: `parent1_id and index.get(parent1_id,{}).get("parent1_id")
== index.get(member_id,{}).get("parent1_id")`.  Both sides of the equality
are `None` when the corresponding lookup or field is missing, and in
Python `None == None` is `True`. -/
def saudaraB (idx : Int → Option Member) (member_id : Int) (m : Member) : Bool :=
  truthy m.parent1_id && (optLookP1 idx m.parent1_id == lookP1 idx member_id)

/-- The `if/elif` chain of lines 60-73: the first matching rule labels the
member, no match gives no label. -/
def memberLabel (idx : Int → Option Member) (member_id : Int) (m : Member) : Option String :=
  if childB member_id m then some "Anak"
  else if grandchildB idx member_id m then some "Cucu"
  else if keponakanB idx member_id m then some "Keponakan"
  else if saudaraB idx member_id m then some "Saudara"
  else none

/-- The `for member in family` loop of lines 51-73: members equal to the
subject are skipped, a matching rule assigns `relationships[member.id]`
(overwriting any earlier binding of the same key). -/
def classifyAux (idx : Int → Option Member) (member_id : Int) :
    List Member → (Int → Option String) → (Int → Option String)
  | [], rels => rels
  | m :: rest, rels =>
    if m.id = member_id then classifyAux idx member_id rest rels
    else
      match memberLabel idx member_id m with
      | some l => classifyAux idx member_id rest (fun j => if j = m.id then some l else rels j)
      | none => classifyAux idx member_id rest rels

/-- `calculate_relationship(family, member_id)`, lines 46-75: builds the
id index and runs the rule loop starting from the empty dict.  The result
is the `relationships` mapping, read as a function from member id to
optional label. -/
def calculate_relationship (family : List Member) (member_id : Int) : Int → Option String :=
  classifyAux (id_to_member family) member_id family (fun _ => none)

/-- The node/edge structure emitted by `generate_family_tree` before it is
handed to the rendering library: node names are `str(member["id"])`
(kept as the integer id, `str` being injective on ids), node labels the
formatted string, edges directed parent → child. -/
structure Graph where
  nodes : List (Int × String)
  edges : List (Int × Int)
  deriving DecidableEq, Repr

/-- Lines 95-99: an edge is emitted for a parent field only when the key
is present and its value truthy (`"parent1_id" in member and
member["parent1_id"]`), so `None`, an absent key, and `0` all emit nothing. -/
def parentEdge (oparent : Option Int) (child : Int) : List (Int × Int) :=
  match oparent with
  | none => []
  | some p => if p = 0 then [] else [(p, child)]

/-- Lines 87-99 of `generate_family_tree`: one node per member labelled
`f'{member["name"]}\n({member.get("anggota", "")})'`, then the parent
edges member by member. -/
def generate_family_tree (family : List Member) : Graph :=
  { nodes := family.map (fun m => (m.id, m.name ++ "\n(" ++ m.anggota.getD "" ++ ")"))
    edges := family.flatMap (fun m => parentEdge m.parent1_id m.id ++ parentEdge m.parent2_id m.id) }

/-- Lines 213-223, `delete_family_member`: the pure store transition.
Returns the stored family after the request together with the HTTP status
code: filtering out the id; if nothing was removed, 404 and no save
(store unchanged), otherwise the filtered list is saved with 200. -/
def delete_family_member (family : List Member) (member_id : Int) : List Member × Nat :=
  let updated_family := family.filter (fun m => m.id != member_id)
  if updated_family.length = family.length then (family, 404)
  else (updated_family, 200)

/-! Concrete member lists used by the scenario checks and counterexamples. -/

/-- Member 1 of the spec scenarios: no parents. -/
def mA : Member := ⟨1, "A", some "G", none, none⟩

/-- Member 2 of the spec scenarios: `parent1_id = 1`. -/
def mB : Member := ⟨2, "B", some "G", some 1, none⟩

/-- Member 3 of scenario C: `parent1_id = 1`. -/
def mC : Member := ⟨3, "C", some "G", some 1, none⟩

/-- Member 3 of scenario B: `parent1_id = 2`. -/
def mCgrand : Member := ⟨3, "C", some "G", some 2, none⟩

/-- Scenario A family. -/
def famA : List Member := [mA, mB]

/-- Scenario B family. -/
def famB : List Member := [mA, mB, mCgrand]

/-- Scenario C family. -/
def famC : List Member := [mA, mB, mC]

/-- A member with a dangling `parent1_id = 5` (no member has id 5). -/
def mDangling : Member := ⟨2, "B", some "G", some 5, none⟩

/-- A member with id `0` that is a child of member 5. -/
def mZero : Member := ⟨0, "Z", some "G", some 5, none⟩

/-- A member whose `parent1_id` is the (falsy) id `0`. -/
def mChildOfZero : Member := ⟨2, "B", some "G", some 0, none⟩

/-- First member with duplicated id 1 (has a parent reference). -/
def mDupFirst : Member := ⟨1, "A", some "G", some 7, none⟩

/-- Second member with duplicated id 1 (no parent reference). -/
def mDupSecond : Member := ⟨1, "A2", some "G", none, none⟩

/-- A lone member whose `parent1_id` is the integer `0`. -/
def mParentZero : Member := ⟨1, "A", some "G", some 0, none⟩

/-! Helper lemmas about the engine. -/

/-- The accumulator of the rule loop ends up `none` at a query id exactly
when it started `none` there and no evaluated member with that id (the
subject being skipped) matched a rule. -/
theorem classifyAux_eq_none_iff (idx : Int → Option Member) (mid : Int) (l : List Member) :
    ∀ (acc : Int → Option String) (i : Int),
      classifyAux idx mid l acc i = none ↔
        (acc i = none ∧ ∀ m ∈ l, m.id = i → m.id ≠ mid → memberLabel idx mid m = none) := by
  induction l with
  | nil => intro acc i; simp [classifyAux]
  | cons m rest ih =>
    intro acc i
    simp only [classifyAux]
    by_cases hs : m.id = mid
    · rw [if_pos hs, ih, List.forall_mem_cons]
      have hP : m.id = i → m.id ≠ mid → memberLabel idx mid m = none := by
        intro _ hne; exact absurd hs hne
      tauto
    · rw [if_neg hs]
      cases hl : memberLabel idx mid m with
      | none =>
        rw [ih, List.forall_mem_cons]
        have hP : m.id = i → m.id ≠ mid → memberLabel idx mid m = none := fun _ _ => hl
        tauto
      | some lab =>
        rw [ih, List.forall_mem_cons]
        by_cases hi : i = m.id
        · constructor
          · rintro ⟨hacc, -⟩
            simp [hi] at hacc
          · rintro ⟨-, hPm, -⟩
            have := hPm hi.symm hs
            rw [hl] at this
            exact absurd this (by simp)
        · rw [if_neg hi]
          have hP : m.id = i → m.id ≠ mid → memberLabel idx mid m = none := by
            intro him _; exact absurd him.symm hi
          tauto

/-- A fold of id-insertions over members none of which carries the queried
id leaves the dict unchanged at that id. -/
theorem idx_foldl_skip (l : List Member) (j : Int) :
    ∀ (d : Int → Option Member), (∀ m ∈ l, m.id ≠ j) →
      l.foldl (fun d m => fun k => if k = m.id then some m else d k) d j = d j := by
  induction l with
  | nil => intro d _; rfl
  | cons m rest ih =>
    intro d h
    simp only [List.foldl_cons]
    rw [ih _ (fun m' hm' => h m' (List.mem_cons_of_mem _ hm'))]
    exact if_neg (fun hj => (h m (List.mem_cons_self m rest)) hj.symm)

/-- The label is `Anak` exactly when the child rule matches. -/
theorem memberLabel_eq_anak_iff (idx : Int → Option Member) (sid : Int) (m : Member) :
    memberLabel idx sid m = some "Anak" ↔ childB sid m = true := by
  unfold memberLabel
  split_ifs with h1 h2 h3 h4 <;> simp_all

/-- The label is `Cucu` exactly when the child rule fails and the
grandchild rule matches. -/
theorem memberLabel_eq_cucu_iff (idx : Int → Option Member) (sid : Int) (m : Member) :
    memberLabel idx sid m = some "Cucu" ↔
      (childB sid m = false ∧ grandchildB idx sid m = true) := by
  unfold memberLabel
  split_ifs with h1 h2 h3 h4 <;> simp_all

/-- The label is `Keponakan` exactly when the first two rules fail and the
niece/nephew rule matches. -/
theorem memberLabel_eq_keponakan_iff (idx : Int → Option Member) (sid : Int) (m : Member) :
    memberLabel idx sid m = some "Keponakan" ↔
      (childB sid m = false ∧ grandchildB idx sid m = false ∧ keponakanB idx sid m = true) := by
  unfold memberLabel
  split_ifs with h1 h2 h3 h4 <;> simp_all

/-- The label is `Saudara` exactly when the first three rules fail and the
sibling rule matches. -/
theorem memberLabel_eq_saudara_iff (idx : Int → Option Member) (sid : Int) (m : Member) :
    memberLabel idx sid m = some "Saudara" ↔
      (childB sid m = false ∧ grandchildB idx sid m = false ∧
        keponakanB idx sid m = false ∧ saudaraB idx sid m = true) := by
  unfold memberLabel
  split_ifs with h1 h2 h3 h4 <;> simp_all

/-- No label exactly when all four rules fail. -/
theorem memberLabel_eq_none_iff (idx : Int → Option Member) (sid : Int) (m : Member) :
    memberLabel idx sid m = none ↔
      (childB sid m = false ∧ grandchildB idx sid m = false ∧
        keponakanB idx sid m = false ∧ saudaraB idx sid m = false) := by
  unfold memberLabel
  split_ifs with h1 h2 h3 h4 <;> simp_all

/-- A member with no parent references matches no rule. -/
theorem memberLabel_no_parents (idx : Int → Option Member) (sid : Int) (m : Member)
    (h1 : m.parent1_id = none) (h2 : m.parent2_id = none) :
    memberLabel idx sid m = none := by
  rw [memberLabel_eq_none_iff]
  refine ⟨?_, ?_, ?_, ?_⟩ <;>
    simp [childB, grandchildB, keponakanB, saudaraB, grandParentCheck, optLookP1, optLookP2,
      truthy, h1, h2]

/-! Claim C1. -/

/-- C1 counterexample: on the scenario-C family with subject 2, member 3
is not labeled at all (and neither is member 1), so the claimed mapping
`\x7b3: Sibling\x7d` is wrong at this input: the sibling rule compares the
grandparent of member 3 (`None`, member 1 has no `parent1_id`) with the
subject's parent (`1`). -/
theorem C1_counterexample :
    calculate_relationship famC 2 3 = none ∧ calculate_relationship famC 2 1 = none :=
  ⟨rfl, rfl⟩

/-- C1 amended: for the member list `[(1,A), (2,B,parent1:1), (3,C,parent1:1)]`,
`calculate_relationship` with subject 2 returns the empty mapping — no
member at all is labeled. -/
theorem C1_amended : ∀ i : Int, calculate_relationship famC 2 i = none := by
  intro i
  rw [calculate_relationship, classifyAux_eq_none_iff]
  refine ⟨rfl, ?_⟩
  intro m hm _ hne
  have hm' : m = mA ∨ m = mB ∨ m = mC := by simpa [famC] using hm
  rcases hm' with rfl | rfl | rfl
  · rfl
  · exact absurd rfl hne
  · rfl

/-! Claim C2. -/

/-- C2 counterexample: member 2 has the dangling `parent1_id = 5` (no
member with id 5 exists), yet with subject 1 it is labeled `Saudara`: both
sides of the sibling comparison are `None` and `None == None` holds, so a
missing index entry does not short-circuit the rule to no match. -/
theorem C2_counterexample :
    calculate_relationship [mA, mDangling] 1 2 = some "Saudara" ∧
    mDangling.parent1_id = some 5 ∧
    id_to_member [mA, mDangling] 5 = none :=
  ⟨rfl, rfl, rfl⟩

/-- C2 amended: the sibling rule matches exactly when the three earlier
rules fail, `m.parent1_id` is truthy (non-null and non-zero), and the two
looked-up `parent1_id` values — each `None` when the index entry or the
field is missing — are either both present and equal or both absent; a
doubly-missing lookup therefore matches rather than failing closed. -/
theorem C2_amended (family : List Member) (sid : Int) (m : Member) :
    memberLabel (id_to_member family) sid m = some "Saudara" ↔
      (childB sid m = false ∧ grandchildB (id_to_member family) sid m = false ∧
        keponakanB (id_to_member family) sid m = false ∧
        (∃ p : Int, m.parent1_id = some p ∧ p ≠ 0) ∧
        ((∃ v : Int, optLookP1 (id_to_member family) m.parent1_id = some v ∧
            lookP1 (id_to_member family) sid = some v) ∨
          (optLookP1 (id_to_member family) m.parent1_id = none ∧
            lookP1 (id_to_member family) sid = none))) := by
  have hopt : ∀ X Y : Option Int, X = Y ↔
      ((∃ v : Int, X = some v ∧ Y = some v) ∨ (X = none ∧ Y = none)) := by
    intro X Y
    cases X <;> cases Y <;> simp [eq_comm]
  have hsaud : saudaraB (id_to_member family) sid m = true ↔
      ((∃ p : Int, m.parent1_id = some p ∧ p ≠ 0) ∧
        optLookP1 (id_to_member family) m.parent1_id = lookP1 (id_to_member family) sid) := by
    unfold saudaraB truthy
    cases hp : m.parent1_id with
    | none => simp
    | some p => simp [hp, Bool.and_eq_true, bne_iff_ne, beq_iff_eq]
  rw [memberLabel_eq_saudara_iff, hsaud,
    hopt (optLookP1 (id_to_member family) m.parent1_id) (lookP1 (id_to_member family) sid)]

/-- C2 witness: the amended rule applied at a concrete input — both
lookups are absent, so member 2 is labeled `Saudara` with subject 1. -/
theorem C2_witness :
    memberLabel (id_to_member [mA, mDangling]) 1 mDangling = some "Saudara" :=
  (C2_amended [mA, mDangling] 1 mDangling).mpr
    ⟨by decide, by decide, by decide, ⟨5, rfl, by decide⟩, Or.inr ⟨rfl, rfl⟩⟩

/-! Claim C3. -/

/-- C3 counterexample: subject 99 is no member's id, yet the result is not
empty — the lone member (dangling `parent1_id = 5`) is labeled `Saudara`
because both sibling lookups degrade to `None` and compare equal. -/
theorem C3_counterexample :
    (List.map Member.id [mDangling]).contains 99 = false ∧
    calculate_relationship [mDangling] 99 2 = some "Saudara" :=
  ⟨rfl, rfl⟩

/-- C3 amended: an unknown subject id still executes, but the mapping is
only guaranteed empty when no member carries any parent reference;
dangling references or unresolvable `parent1_id` chains can still label
members (the sibling rule matches on two absent lookups). -/
theorem C3_amended (family : List Member) (sid : Int)
    (_hunknown : ∀ m ∈ family, m.id ≠ sid)
    (hparents : ∀ m ∈ family, m.parent1_id = none ∧ m.parent2_id = none) :
    ∀ i : Int, calculate_relationship family sid i = none := by
  intro i
  rw [calculate_relationship, classifyAux_eq_none_iff]
  exact ⟨rfl, fun m hm _ _ =>
    memberLabel_no_parents _ _ _ (hparents m hm).1 (hparents m hm).2⟩

/-- C3 witness: the amended statement at a concrete parent-free family and
unknown subject 9. -/
theorem C3_witness : calculate_relationship [mA] 9 1 = none :=
  C3_amended [mA] 9 (by decide) (by decide) 1

/-! Claim C4. -/

/-- C4 counterexample: with two members of id 1, the index returns the
second occurrence (whose `parent1_id` is absent), not the first (whose
`parent1_id` is 7) — a Python dict comprehension lets the last binding of
a key win. -/
theorem C4_counterexample :
    id_to_member [mDupFirst, mDupSecond] 1 = some mDupSecond ∧
    mDupFirst.parent1_id = some 7 ∧ mDupSecond.parent1_id = none ∧
    (mDupFirst == mDupSecond) = false := by
  refine ⟨rfl, rfl, rfl, by decide⟩

/-- C4 amended: on duplicate ids the index maps the id to the **last**
occurrence in the list, so parent lookups during rule evaluation resolve
to the latest member with that id. -/
theorem C4_amended (xs : List Member) (m : Member) (ys : List Member)
    (h : ∀ m' ∈ ys, m'.id ≠ m.id) :
    id_to_member (xs ++ m :: ys) m.id = some m := by
  unfold id_to_member
  rw [List.foldl_append, List.foldl_cons, idx_foldl_skip ys m.id _ h]
  simp

/-- C4 witness: the amended statement at the concrete duplicated list. -/
theorem C4_witness : id_to_member [mDupFirst, mDupSecond] 1 = some mDupSecond := by
  have h := C4_amended [mDupFirst] mDupSecond [] (by simp)
  simpa [mDupSecond] using h

/-! Claim C5. -/

/-- C5: for every member other than the subject the engine assigns at most
one label, the first matching rule in the fixed order Child (`Anak`),
Grandchild (`Cucu`), Niece/Nephew (`Keponakan`), Sibling (`Saudara`) — a
label is produced exactly when its rule matches and every higher-priority
rule fails — and a query id is absent from the result mapping exactly when
every evaluated member carrying that id matched no rule. -/
theorem C5_priority (family : List Member) (sid : Int) :
    (∀ m : Member,
      (memberLabel (id_to_member family) sid m = some "Anak" ↔ childB sid m = true) ∧
      (memberLabel (id_to_member family) sid m = some "Cucu" ↔
        (childB sid m = false ∧ grandchildB (id_to_member family) sid m = true)) ∧
      (memberLabel (id_to_member family) sid m = some "Keponakan" ↔
        (childB sid m = false ∧ grandchildB (id_to_member family) sid m = false ∧
          keponakanB (id_to_member family) sid m = true)) ∧
      (memberLabel (id_to_member family) sid m = some "Saudara" ↔
        (childB sid m = false ∧ grandchildB (id_to_member family) sid m = false ∧
          keponakanB (id_to_member family) sid m = false ∧
          saudaraB (id_to_member family) sid m = true)) ∧
      (memberLabel (id_to_member family) sid m = none ↔
        (childB sid m = false ∧ grandchildB (id_to_member family) sid m = false ∧
          keponakanB (id_to_member family) sid m = false ∧
          saudaraB (id_to_member family) sid m = false))) ∧
    (∀ i : Int, calculate_relationship family sid i = none ↔
      ∀ m ∈ family, m.id = i → m.id ≠ sid →
        memberLabel (id_to_member family) sid m = none) := by
  refine ⟨fun m => ⟨memberLabel_eq_anak_iff _ _ _, memberLabel_eq_cucu_iff _ _ _,
    memberLabel_eq_keponakan_iff _ _ _, memberLabel_eq_saudara_iff _ _ _,
    memberLabel_eq_none_iff _ _ _⟩, fun i => ?_⟩
  rw [calculate_relationship, classifyAux_eq_none_iff]
  simp

/-- C5 witness: at scenario A with subject 1, id 3 belongs to no member
and is absent from the mapping. -/
theorem C5_witness : calculate_relationship famA 1 3 = none :=
  ((C5_priority famA 1).2 3).mpr (by decide)

/-! Claim C6. -/

/-- C6 counterexample: member 2's parent id `0` resolves in the index to a
member whose `parent1_id` is the subject 5, so the claim demands the
`Grandchild` label, but the code's truthiness guard skips parent id `0`
and the member falls through to `Keponakan`. -/
theorem C6_counterexample :
    mChildOfZero.parent1_id = some 0 ∧
    lookP1 (id_to_member [mZero, mChildOfZero]) 0 = some 5 ∧
    childB 5 mChildOfZero = false ∧
    calculate_relationship [mZero, mChildOfZero] 5 2 = some "Keponakan" :=
  ⟨rfl, rfl, rfl, rfl⟩

/-- One parent slot passes the grandchild check exactly when it holds a
non-zero id whose index entry has `parent1_id` equal to the subject. -/
theorem grandParentCheck_eq_true_iff (idx : Int → Option Member) (sid : Int) (o : Option Int) :
    grandParentCheck idx sid o = true ↔
      ∃ p : Int, o = some p ∧ p ≠ 0 ∧
        ∃ mm : Member, idx p = some mm ∧ mm.parent1_id = some sid := by
  cases o with
  | none => simp [grandParentCheck]
  | some p =>
    simp only [grandParentCheck, Bool.and_eq_true, bne_iff_ne, beq_iff_eq, lookP1]
    cases hi : idx p <;> simp [hi]

/-- C6 amended: a member not labeled `Anak` is labeled `Cucu` iff one of
its **truthy** (non-null, non-zero) parent ids resolves in the index to a
member whose `parent1_id` equals the subject; the `parent2_id` of the
intermediate member is never consulted, and a parent id of `0` is skipped
outright. -/
theorem C6_amended (family : List Member) (sid : Int) (m : Member)
    (h : childB sid m = false) :
    memberLabel (id_to_member family) sid m = some "Cucu" ↔
      ∃ p : Int, (m.parent1_id = some p ∨ m.parent2_id = some p) ∧ p ≠ 0 ∧
        ∃ mm : Member, id_to_member family p = some mm ∧ mm.parent1_id = some sid := by
  have hg : grandchildB (id_to_member family) sid m = true ↔
      ∃ p : Int, (m.parent1_id = some p ∨ m.parent2_id = some p) ∧ p ≠ 0 ∧
        ∃ mm : Member, id_to_member family p = some mm ∧ mm.parent1_id = some sid := by
    unfold grandchildB
    rw [Bool.or_eq_true, grandParentCheck_eq_true_iff, grandParentCheck_eq_true_iff]
    constructor
    · rintro (⟨p, hp, h0, mm, hmm, hsid⟩ | ⟨p, hp, h0, mm, hmm, hsid⟩)
      · exact ⟨p, Or.inl hp, h0, mm, hmm, hsid⟩
      · exact ⟨p, Or.inr hp, h0, mm, hmm, hsid⟩
    · rintro ⟨p, hp | hp, h0, mm, hmm, hsid⟩
      · exact Or.inl ⟨p, hp, h0, mm, hmm, hsid⟩
      · exact Or.inr ⟨p, hp, h0, mm, hmm, hsid⟩
  rw [memberLabel_eq_cucu_iff, hg]
  simp [h]

/-- C6 witness: scenario B — member 3 (child of 2, grandchild of 1) is
labeled `Cucu` with subject 1 through the amended rule. -/
theorem C6_witness : memberLabel (id_to_member famB) 1 mCgrand = some "Cucu" :=
  (C6_amended famB 1 mCgrand (by decide)).mpr
    ⟨2, Or.inl rfl, by decide, mB, by decide, rfl⟩

/-! Claim C7 and C10: helper lemmas about the emitted graph. -/

/-- Each parent slot emits exactly one edge when truthy and none otherwise. -/
theorem parentEdge_length (o : Option Int) (c : Int) :
    (parentEdge o c).length = if truthy o then 1 else 0 := by
  cases o with
  | none => rfl
  | some p => by_cases hp : p = 0 <;> simp [parentEdge, truthy, hp]

/-- Edge membership for one parent slot: the slot holds exactly the
non-zero parent value, pointing at the child. -/
theorem mem_parentEdge_iff (o : Option Int) (c : Int) (e : Int × Int) :
    e ∈ parentEdge o c ↔ (o = some e.1 ∧ e.1 ≠ 0 ∧ e.2 = c) := by
  cases o with
  | none => simp [parentEdge]
  | some p =>
    by_cases hp : p = 0
    · simp [parentEdge, hp]
      intro h0 h1
      exact absurd h0.symm h1
    · cases e with
      | mk x y => simp [parentEdge, hp, Prod.ext_iff]
                  constructor
                  · rintro ⟨rfl, rfl⟩
                    exact ⟨rfl, hp, rfl⟩
                  · rintro ⟨h1, -, h2⟩
                    exact ⟨h1.symm, h2⟩

/-- The edge list length is the number of truthy parent references. -/
theorem edges_length_eq (family : List Member) :
    (generate_family_tree family).edges.length =
      (family.map (fun m => (if truthy m.parent1_id then 1 else 0) +
        (if truthy m.parent2_id then 1 else 0))).sum := by
  induction family with
  | nil => rfl
  | cons m rest ih =>
    simp only [generate_family_tree] at ih ⊢
    simp only [List.flatMap_cons, List.length_append, List.map_cons, List.sum_cons,
      parentEdge_length, ih]

/-- At most two edges per member. -/
theorem edges_length_le (family : List Member) :
    (generate_family_tree family).edges.length ≤ 2 * family.length := by
  rw [edges_length_eq]
  induction family with
  | nil => simp
  | cons m rest ih =>
    simp only [List.map_cons, List.sum_cons, List.length_cons]
    have h1 : (if truthy m.parent1_id then 1 else 0) ≤ 1 := by split <;> omega
    have h2 : (if truthy m.parent2_id then 1 else 0) ≤ 1 := by split <;> omega
    omega

/-- An edge is emitted exactly for a member holding its target id whose
`parent1_id` or `parent2_id` is the (non-zero) source id. -/
theorem mem_edges_iff (family : List Member) (e : Int × Int) :
    e ∈ (generate_family_tree family).edges ↔
      ∃ m ∈ family, e.2 = m.id ∧ e.1 ≠ 0 ∧
        (m.parent1_id = some e.1 ∨ m.parent2_id = some e.1) := by
  simp only [generate_family_tree, List.mem_flatMap, List.mem_append, mem_parentEdge_iff]
  refine exists_congr fun m => and_congr_right fun _ => ?_
  tauto

/-- C7 counterexample: a member whose `parent1_id` is the non-null integer
`0` produces no edge at all, though the claim demands one edge for every
non-null parent reference. -/
theorem C7_counterexample :
    mParentZero.parent1_id = some 0 ∧
    (generate_family_tree [mParentZero]).edges.length = 0 :=
  ⟨rfl, rfl⟩

/-- C7 amended: one node per member labelled `name\n(group)`; one directed
edge `parent → member` per **truthy** parent reference (non-null and
non-zero — a parent id of `0` emits no edge), so the edge count is the
number of truthy parent references and is at most twice the member count. -/
theorem C7_amended (family : List Member) :
    (generate_family_tree family).nodes.length = family.length ∧
    (∀ m ∈ family,
      (m.id, m.name ++ "\n(" ++ m.anggota.getD "" ++ ")") ∈ (generate_family_tree family).nodes) ∧
    (generate_family_tree family).edges.length =
      (family.map (fun m => (if truthy m.parent1_id then 1 else 0) +
        (if truthy m.parent2_id then 1 else 0))).sum ∧
    (generate_family_tree family).edges.length ≤ 2 * family.length ∧
    (∀ e : Int × Int, e ∈ (generate_family_tree family).edges ↔
      ∃ m ∈ family, e.2 = m.id ∧ e.1 ≠ 0 ∧
        (m.parent1_id = some e.1 ∨ m.parent2_id = some e.1)) :=
  ⟨by simp [generate_family_tree],
   fun m hm => List.mem_map_of_mem _ hm,
   edges_length_eq family,
   edges_length_le family,
   mem_edges_iff family⟩

/-- C7 witness: scenario A emits the edge 1 → 2 for member B's
`parent1_id = 1`. -/
theorem C7_witness : ((1 : Int), (2 : Int)) ∈ (generate_family_tree famA).edges :=
  ((C7_amended famA).2.2.2.2 (1, 2)).mpr ⟨mB, by decide, rfl, by decide, Or.inl rfl⟩

/-! Claim C8. -/

/-- C8: deleting an id no member carries reports 404 (NotFoundError) and
performs no save — the stored collection is returned unchanged, so a
subsequent load sees the same list. -/
theorem C8_notfound (family : List Member) (member_id : Int)
    (h : ∀ m ∈ family, m.id ≠ member_id) :
    delete_family_member family member_id = (family, 404) := by
  have hf : family.filter (fun m => m.id != member_id) = family :=
    List.filter_eq_self.mpr (fun m hm => by simpa [bne_iff_ne] using h m hm)
  simp [delete_family_member, hf]

/-- C8 witness: deleting id 7 from `[mA]` fails with 404 and leaves the
store untouched. -/
theorem C8_witness : delete_family_member [mA] 7 = ([mA], 404) :=
  C8_notfound [mA] 7 (by decide)

/-! Claim C9. -/

/-- C9: when some member carries the requested id, delete succeeds with
200 and the saved list drops **every** member with that id (not only the
first), keeping all other members with their multiplicities in the
original order. -/
theorem C9_delete_all (family : List Member) (member_id : Int)
    (h : ∃ m ∈ family, m.id = member_id) :
    (delete_family_member family member_id).2 = 200 ∧
    (∀ m ∈ (delete_family_member family member_id).1, m.id ≠ member_id) ∧
    (delete_family_member family member_id).1.Sublist family ∧
    (∀ m : Member, m.id ≠ member_id →
      (delete_family_member family member_id).1.count m = family.count m) := by
  obtain ⟨m0, hm0, hid⟩ := h
  have hlt : (family.filter (fun m => m.id != member_id)).length < family.length := by
    rw [List.length_filter_lt_length_iff_exists]
    exact ⟨m0, hm0, by simp [bne_iff_ne, hid]⟩
  have hne : ¬((family.filter (fun m => m.id != member_id)).length = family.length) :=
    Nat.ne_of_lt hlt
  have hd : delete_family_member family member_id =
      (family.filter (fun m => m.id != member_id), 200) := by
    simp [delete_family_member, hne]
  rw [hd]
  refine ⟨rfl, ?_, List.filter_sublist family, ?_⟩
  · intro m hm
    have hmem := (List.mem_filter.mp hm).2
    simpa [bne_iff_ne] using hmem
  · intro m hmne
    exact List.count_filter (by simpa [bne_iff_ne] using hmne)

/-- C9 witness: deleting id 1 from a list with two members of id 1
succeeds with status 200. -/
theorem C9_witness : (delete_family_member [mDupFirst, mDupSecond, mB] 1).2 = 200 :=
  (C9_delete_all [mDupFirst, mDupSecond, mB] 1 ⟨mDupFirst, by decide, rfl⟩).1

/-! Claim C10. -/

/-- C10: the tree builder emits no edge whose source is `0` — a present
parent reference with value `0` is dropped because the guard tests
truthiness, not non-nullness — so a member with `parent1_id = 0` or
`parent2_id = 0` has no corresponding parent edge in the graph. -/
theorem C10_zero_parent (family : List Member) :
    (∀ e ∈ (generate_family_tree family).edges, e.1 ≠ 0) ∧
    (∀ m ∈ family, (m.parent1_id = some 0 ∨ m.parent2_id = some 0) →
      ((0 : Int), m.id) ∉ (generate_family_tree family).edges) := by
  have hall : ∀ e ∈ (generate_family_tree family).edges, e.1 ≠ 0 := by
    intro e he
    rw [mem_edges_iff] at he
    obtain ⟨m, -, -, h0, -⟩ := he
    exact h0
  exact ⟨hall, fun m _ _ hmem => (hall _ hmem) rfl⟩

/-- C10 witness: the lone member with `parent1_id = 0` yields a graph
without the edge 0 → 1. -/
theorem C10_witness : ((0 : Int), (1 : Int)) ∉ (generate_family_tree [mParentZero]).edges :=
  (C10_zero_parent [mParentZero]).2 mParentZero (by decide) (Or.inl rfl)
